import Mathlib

/-!
# Concurrent Transaction Dispatch and Confirmation Engine — verification

Shallow embedding of the multi-transfer CLI's core engine
(`src/multi-transfer-cli/src/main.rs` and `types.rs`):

* plan expansion into the cross product of sources × destinations
  (`main.rs` lines 54–64),
* the per-unit pipeline load-key → parse-address → build → send → poll
  (`main.rs` lines 83–218), with the environment of one unit (key file
  contents, address parsing, RPC replies) given by an oracle,
* the confirmation polling loop with its two back-off intervals
  (`main.rs` lines 173–191) over a virtual millisecond clock,
* the SOL→lamports conversion `(amount_sol * 1_000_000_000.0) as u64`
  (`main.rs` line 129) over an exact model of IEEE-754 binary64
  round-to-nearest-even arithmetic on rationals,
* the aggregation loop `for handle in handles { handle.await? }`
  (`main.rs` lines 222–233), where a panicked task surfaces as a
  `JoinError` that `?` propagates out of `main`,
* the summary statistics (`main.rs` lines 248–297),
* the tokio counting semaphore bounding concurrency (`main.rs`
  lines 69 and 85), modelled as a labelled transition system.

`f64` values are carried as the exact rationals they denote; machine
`u64` arithmetic appears only in the saturating cast, made explicit.
-/

namespace MultiTransfer

/-- A ledger public key; `base58` is the string `Pubkey::to_string()`
renders (base58 of the 32-byte key). -/
structure Pubkey where
  base58 : String
deriving DecidableEq

/-- Key material loaded from a keypair file; only the derived public key
(`Keypair::pubkey()`) is observable to the engine. -/
structure Keypair where
  pubkey : Pubkey
deriving DecidableEq

/-- A transaction signature as returned by submission.  `default` is
`Signature::default()` (the all-zeros signature used on failure paths). -/
inductive Signature
  | default
  | sig (s : String)
deriving DecidableEq

/-- `types.rs` `TransferStatus`. -/
inductive TransferStatus
  | Success
  | Failed (msg : String)
  | Timeout
deriving DecidableEq

/-- `types.rs` `SourceWallet`: a keypair path plus an optional per-source
amount override.  The f64 amount is carried as the exact rational it
denotes. -/
structure SourceWallet where
  from_keypair_path : String
  amount : Option ℚ
deriving DecidableEq

/-- `types.rs` `Config` (the YAML configuration, already parsed — parsing
is a collaborator, out of engine scope). -/
structure Config where
  rpc_url : String
  amount : ℚ
  source_wallets : List SourceWallet
  destination_wallets : List String
deriving DecidableEq

/-- `types.rs` `TransferSpec`: one unit of work. -/
structure TransferSpec where
  from_keypair_path : String
  to_address : String
  amount_sol : ℚ
deriving DecidableEq

/-- `types.rs` `TransferResult`.  The Rust fields `from` and `to` are Lean
keywords, hence `from'` and `to'`. -/
structure TransferResult where
  from' : String
  to' : String
  amount : ℚ
  signature : Signature
  duration_ms : ℕ
  status : TransferStatus
deriving DecidableEq

/-- Plan expansion, `main.rs` lines 54–64: for each source (outer loop)
and each destination (inner loop) push one `TransferSpec`; the amount is
the source's override when present, else the plan default
(`source.amount.unwrap_or(config.amount)`). -/
def expandTransfers (config : Config) : List TransferSpec :=
  config.source_wallets.flatMap (fun source =>
    let amount := source.amount.getD config.amount
    config.destination_wallets.map (fun dest =>
      { from_keypair_path := source.from_keypair_path
        to_address := dest
        amount_sol := amount }))

/-! ## IEEE-754 binary64 model

`main.rs` line 129 computes `(amount_sol * 1_000_000_000.0) as u64`.
`amount_sol` is an `f64`; every finite `f64` denotes a rational, and the
`*` is IEEE-754 round-to-nearest-even on 53-bit significands.  We model
finite doubles in the normal range as exact rationals and the multiply as
exact rational multiplication followed by `roundF64`.  The `as u64` cast
in Rust truncates toward zero and saturates; `f64toU64` spells that out. -/

/-- `2^e` in `ℚ` for an integer exponent, by explicit case split
(kernel-reducible, no `zpow` instance path). -/
def pow2q (e : ℤ) : ℚ :=
  if 0 ≤ e then ((2 ^ e.toNat : ℕ) : ℚ) else 1 / ((2 ^ (-e).toNat : ℕ) : ℚ)

/-- For `q ≥ 1`: `⌊log₂ q⌋`, by repeated halving (fuel-structural so the
kernel can evaluate it; 1100 steps covers the whole double range). -/
def findExpUp : ℕ → ℚ → ℕ
  | 0, _ => 0
  | fuel + 1, q => if (2 : ℚ) ≤ q then findExpUp fuel (q / 2) + 1 else 0

/-- For `0 < q < 1`: the `n ≥ 1` with `2^(-n) ≤ q < 2^(-n+1)`, by repeated
doubling. -/
def findExpDown : ℕ → ℚ → ℕ
  | 0, _ => 0
  | fuel + 1, q => if 1 ≤ q then 0 else findExpDown fuel (q * 2) + 1

/-- `⌊log₂ q⌋` for positive `q` in the double range. -/
def floorLog2 (q : ℚ) : ℤ :=
  if 1 ≤ q then (findExpUp 1100 q : ℤ) else -(findExpDown 1100 q : ℤ)

/-- Truncation of a nonnegative rational toward zero, as the `u64` cast
performs it (`num / den` in natural division). -/
def ratTruncNat (q : ℚ) : ℕ := q.num.toNat / q.den

/-- Round a positive rational to the nearest binary64 value
(round-to-nearest, ties-to-even, 53-bit significand; normal range). -/
def roundPos (q : ℚ) : ℚ :=
  let e := floorLog2 q
  let scaled := q * pow2q (52 - e)
  let n := ratTruncNat scaled
  let frac := scaled - (n : ℚ)
  let m : ℕ :=
    if frac < 1 / 2 then n
    else if 1 / 2 < frac then n + 1
    else if n % 2 = 0 then n else n + 1
  (m : ℚ) * pow2q (e - 52)

/-- Round a rational to the nearest binary64 value (normal range; our
inputs are mid-range so subnormals and overflow do not arise). -/
def roundF64 (q : ℚ) : ℚ :=
  if q = 0 then 0 else if q < 0 then -(roundPos (-q)) else roundPos q

/-- IEEE-754 binary64 multiplication: exact product, then one rounding. -/
def fmul64 (a b : ℚ) : ℚ := roundF64 (a * b)

/-- Rust `expr as u64` on a finite `f64` value: truncate toward zero,
saturate at the `u64` bounds. -/
def f64toU64 (q : ℚ) : ℕ :=
  if q ≤ 0 then 0 else min (ratTruncNat q) (2 ^ 64 - 1)

/-- `main.rs` line 129: `let lamports = (amount_sol * 1_000_000_000.0) as u64`.
(`1_000_000_000.0` is exactly representable, so no rounding hides in the
literal.) -/
def solToLamports (amount_sol : ℚ) : ℕ :=
  f64toU64 (fmul64 amount_sol 1000000000)

/-- The binary64 value the decimal literal `0.0000000015` denotes after
parsing (nearest double). -/
def amount15e10 : ℚ := roundF64 (15 / 10000000000)

/-! ## The per-unit pipeline

One unit of work (`main.rs` lines 83–218) interacts with the outside
world through: the keypair file (`read_keypair_file`), destination
parsing (`Pubkey::from_str`), the RPC send call, and the repeated
signature-status queries.  A `UnitEnv` oracle fixes those replies for one
unit; time is a virtual millisecond clock that starts at 0 at
`let start = Instant::now()` (line 145) and advances by the send
duration and by the poll sleeps (queries themselves are instantaneous in
the model). -/

/-- One reply of `rpc_client.get_signature_status`:
`Ok(Some(status))` (definitive), `Ok(None)` (not yet known), or
`Err(e)` (the query itself failed). -/
inductive PollReply
  | finalized (r : Except String Unit)
  | notYet
  | queryError (e : String)

/-- The oracle for one unit: the outcome of each fallible interaction and
the virtual duration of the send call.  `buildPanics` models an
unrecoverable runtime panic while building/signing the transaction
(between address parsing and the send). -/
structure UnitEnv where
  readKeypair : Except String Keypair
  parsePubkey : Except String Pubkey
  buildPanics : Bool
  sendResult : Except String Signature
  sendDurationMs : ℕ
  pollReplies : ℕ → PollReply

/-- The confirmation polling loop, `main.rs` lines 177–191:

    while Instant::now() < end_time {
        match rpc_client.get_signature_status(&signature).await {
            Ok(Some(status)) => { status_result = Some(status); break; }
            Ok(None)         => { sleep(500ms).await; }
            Err(e)           => { sleep(1000ms).await; }
        }
    }

`k` counts queries, `now` is the clock; the result is the final
`status_result` together with the clock at loop exit.  Fuel makes the
recursion structural; every iteration advances the clock by at least
500, so `endTime - now` units of fuel always suffice (and with fuel 0
the guard `now < endTime` is already false). -/
def pollAux (replies : ℕ → PollReply) (endTime : ℕ) :
    ℕ → ℕ → ℕ → Option (Except String Unit) × ℕ
  | 0, _, now => (none, now)
  | fuel + 1, k, now =>
    if now < endTime then
      match replies k with
      | .finalized r => (some r, now)
      | .notYet => pollAux replies endTime fuel (k + 1) (now + 500)
      | .queryError _ => pollAux replies endTime fuel (k + 1) (now + 1000)
    else (none, now)

/-- The polling loop entered at clock `now` with deadline `endTime`. -/
def pollForStatus (replies : ℕ → PollReply) (endTime now : ℕ) :
    Option (Except String Unit) × ℕ :=
  pollAux replies endTime (endTime - now) 0 now

/-- The status mapping at `main.rs` lines 195–208. -/
def statusOfPoll : Option (Except String Unit) → TransferStatus
  | some (.ok _) => .Success
  | some (.error e) => .Failed ("Transaction error: " ++ e)
  | none => .Timeout

/-- A task that panicked; `tokio::spawn` turns the panic into a
`JoinError` observed by `handle.await`. -/
inductive Panicked
  | panicked
deriving DecidableEq

/-- One unit of work, `main.rs` lines 83–218 (the async block).  Returns
`.ok` with the unit's `TransferResult` on every modelled path, or
`.error .panicked` when an unrecoverable panic fires inside the unit; the
code itself catches nothing, the panic unwinds to the task boundary.
The lamports amount of the built transaction is `solToLamports
spec.amount_sol` (line 129); it does not appear in the outcome, whose
`amount` field is the decimal `amount_sol`. -/
def runUnitTask (spec : TransferSpec) (timeoutSecs : ℕ) (env : UnitEnv) :
    Except Panicked TransferResult :=
  match env.readKeypair with
  | .error e =>
    .ok { from' := spec.from_keypair_path
          to' := spec.to_address
          amount := spec.amount_sol
          signature := .default
          duration_ms := 0
          status := .Failed ("Keypair loading error: " ++ e) }
  | .ok from_keypair =>
    let from_pubkey := from_keypair.pubkey
    match env.parsePubkey with
    | .error e =>
      .ok { from' := from_pubkey.base58
            to' := spec.to_address
            amount := spec.amount_sol
            signature := .default
            duration_ms := 0
            status := .Failed ("Invalid destination address: " ++ e) }
    | .ok to_pubkey =>
      if env.buildPanics then .error .panicked
      else
        match env.sendResult with
        | .error e =>
          .ok { from' := from_pubkey.base58
                to' := to_pubkey.base58
                amount := spec.amount_sol
                signature := .default
                duration_ms := env.sendDurationMs
                status := .Failed ("Send error: " ++ e) }
        | .ok signature =>
          let endTime := env.sendDurationMs + timeoutSecs * 1000
          let poll := pollForStatus env.pollReplies endTime env.sendDurationMs
          .ok { from' := from_pubkey.base58
                to' := to_pubkey.base58
                amount := spec.amount_sol
                signature := signature
                duration_ms := poll.2
                status := statusOfPoll poll.1 }

/-- Indexed map with explicit start index (the enumeration implicit in
`transfers.iter().map(...)` followed by positional spawning). -/
def mapWithIndex {α β : Type} (f : ℕ → α → β) : ℕ → List α → List β
  | _, [] => []
  | i, a :: as => f i a :: mapWithIndex f (i + 1) as

/-- The per-task results of a run, one per expanded spec, in spawn
order. -/
def unitResults (config : Config) (timeoutSecs : ℕ) (envs : ℕ → UnitEnv) :
    List (Except Panicked TransferResult) :=
  mapWithIndex (fun i spec => runUnitTask spec timeoutSecs (envs i)) 0
    (expandTransfers config)

/-- The aggregation loop, `main.rs` lines 228–233:

    for handle in handles { let result = handle.await?; results.push(result); }

`handle.await` of a panicked task yields `Err(JoinError)`, and `?`
returns it from `main` — the first panicked task aborts aggregation. -/
def collectAll : List (Except Panicked TransferResult) →
    Except Panicked (List TransferResult)
  | [] => .ok []
  | t :: ts =>
    match t with
    | .error p => .error p
    | .ok r =>
      match collectAll ts with
      | .error p => .error p
      | .ok rs => .ok (r :: rs)

/-- The engine run after configuration parsing and blockhash fetch:
expand the plan, run every unit, aggregate in spawn order. -/
def runBatch (config : Config) (timeoutSecs : ℕ) (envs : ℕ → UnitEnv) :
    Except Panicked (List TransferResult) :=
  collectAll (unitResults config timeoutSecs envs)

/-! ## Summary statistics (`main.rs` lines 248–297) -/

/-- The counters accumulated over the results list. -/
structure Summary where
  success_count : ℕ
  failed_count : ℕ
  timeout_count : ℕ
  total_duration : ℕ
deriving DecidableEq

/-- The fold at `main.rs` lines 253–282. -/
def summarize (results : List TransferResult) : Summary :=
  results.foldl
    (fun acc r =>
      { success_count := acc.success_count +
          (match r.status with | .Success => 1 | _ => 0)
        failed_count := acc.failed_count +
          (match r.status with | .Failed _ => 1 | _ => 0)
        timeout_count := acc.timeout_count +
          (match r.status with | .Timeout => 1 | _ => 0)
        total_duration := acc.total_duration + r.duration_ms })
    ⟨0, 0, 0, 0⟩

/-- `main.rs` lines 290–297: `if !results.is_empty() { total_duration /
results.len() } else { 0 }` — `u64` (truncating) division. -/
def averageDuration (results : List TransferResult) : ℕ :=
  if !results.isEmpty then (summarize results).total_duration / results.length
  else 0

/-! ## The concurrency gate (`main.rs` lines 69 and 85)

`Semaphore::new(args.concurrent)` with `semaphore.acquire().await` at the
top of every unit and release on drop.  Modelled as a labelled transition
system on the set of units currently holding a permit: `acquire` is
enabled only while fewer than `k` permits are out (otherwise the caller
suspends), `release` returns a held permit. -/

/-- One transition of the counting semaphore with capacity `k`; a state
is the list of unit ids currently holding a permit. -/
inductive GateStep (k : ℕ) : List ℕ → List ℕ → Prop
  | acquire (id : ℕ) (s : List ℕ) :
      id ∉ s → s.length < k → GateStep k s (id :: s)
  | release (id : ℕ) (s : List ℕ) :
      id ∈ s → GateStep k s (s.erase id)

/-- States reachable from the initial state (no permits held). -/
inductive GateReach (k : ℕ) : List ℕ → Prop
  | init : GateReach k []
  | step {s s' : List ℕ} : GateReach k s → GateStep k s s' → GateReach k s'

/-! ## Join-order model (`main.rs` lines 222–233)

Spawned tasks complete in an arbitrary order; each completion stores the
task's own result in its `JoinHandle` (slot `i` of a table).  The
aggregator then awaits the handles in original index order.  The
completion order `σ` is the order in which slots get filled. -/

/-- Completion of task `i`: slot `i` receives task `i`'s result. -/
def writeSlot (tasks : List (Except Panicked TransferResult))
    (table : ℕ → Option (Except Panicked TransferResult)) (i : ℕ) :
    ℕ → Option (Except Panicked TransferResult) :=
  fun j => if j = i then tasks[i]? else table j

/-- Fill the table following completion order `σ`. -/
def fillTable (tasks : List (Except Panicked TransferResult)) :
    List ℕ → (ℕ → Option (Except Panicked TransferResult)) →
    ℕ → Option (Except Panicked TransferResult)
  | [], table => table
  | i :: rest, table => fillTable tasks rest (writeSlot tasks table i)

/-- What the aggregator reads: slot `i` for `i = 0, …, n-1` in original
index order, after all completions in order `σ` have landed. -/
def joinInOrder (tasks : List (Except Panicked TransferResult))
    (σ : List ℕ) : List (Option (Except Panicked TransferResult)) :=
  (List.range tasks.length).map (fillTable tasks σ (fun _ => none))

/-! ## Concrete fixtures used to instantiate the theorems -/

/-- A unit environment in which every interaction succeeds and the first
status query already reports success. -/
def envOk : UnitEnv :=
  { readKeypair := .ok ⟨⟨"SrcPub"⟩⟩
    parsePubkey := .ok ⟨"DstPub"⟩
    buildPanics := false
    sendResult := .ok (.sig "Sig1")
    sendDurationMs := 100
    pollReplies := fun _ => .finalized (.ok ()) }

/-- `envOk` but the transaction build panics. -/
def envPanic : UnitEnv :=
  { envOk with buildPanics := true }

/-- `envOk` but the keypair file cannot be read. -/
def envBadKey : UnitEnv :=
  { envOk with readKeypair := .error "No such file" }

/-- A two-destination, one-source plan. -/
def cfgTwoDest : Config :=
  { rpc_url := "http://localhost:8899"
    amount := 1
    source_wallets := [⟨"key1.json", none⟩]
    destination_wallets := ["dest1", "dest2"] }

/-- The spec's §8 scenario: 2 sources (default 1.0, one override 2.5) ×
2 destinations. -/
def cfgScenario : Config :=
  { rpc_url := "http://localhost:8899"
    amount := 1
    source_wallets := [⟨"s1.json", none⟩, ⟨"s2.json", some (5 / 2)⟩]
    destination_wallets := ["d1", "d2"] }

/-- A plan with no sources at all. -/
def cfgNoSources : Config :=
  { rpc_url := "http://localhost:8899"
    amount := 1
    source_wallets := []
    destination_wallets := ["d1"] }

/-- A poll oracle: first query "not yet known", second a transport error,
third definitive success. -/
def pollScript : ℕ → PollReply
  | 0 => .notYet
  | 1 => .queryError "connection reset"
  | _ => .finalized (.ok ())

/-- `envOk` but confirmation follows `pollScript`. -/
def envPollScript : UnitEnv :=
  { envOk with pollReplies := pollScript }

/-- Two outcomes whose durations are 1ms and 2ms. -/
def outcome1ms : TransferResult :=
  ⟨"a", "b", 1, .sig "s1", 1, .Success⟩

/-- See `outcome1ms`. -/
def outcome2ms : TransferResult :=
  ⟨"a", "c", 1, .sig "s2", 2, .Success⟩

end MultiTransfer

namespace MultiTransfer

lemma expandTransfers_length (config : Config) :
    (expandTransfers config).length =
      config.source_wallets.length * config.destination_wallets.length := by
  unfold expandTransfers
  induction config.source_wallets with
  | nil => simp
  | cons s ss ih =>
    simp only [List.flatMap_cons, List.length_append, List.length_map, ih]
    simp only [List.length_cons]
    ring

lemma flatMap_getElem? {α β : Type} (l : List α) (f : α → List β) (D : ℕ)
    (hD : ∀ a, (f a).length = D) :
    ∀ i j, ∀ hi : i < l.length, j < D →
      (l.flatMap f)[i * D + j]? = (f (l.get ⟨i, hi⟩))[j]? := by
  induction l with
  | nil => intro i j hi _; exact absurd hi (Nat.not_lt_zero i)
  | cons a l ih =>
    intro i j hi hj
    cases i with
    | zero =>
      simp only [List.flatMap_cons, Nat.zero_mul, Nat.zero_add]
      rw [List.getElem?_append_left]
      · rfl
      · rw [hD a]; exact hj
    | succ i =>
      simp only [List.flatMap_cons]
      rw [List.getElem?_append_right]
      · have harith : (i + 1) * D + j - (f a).length = i * D + j := by
          rw [hD a]; ring_nf; omega
        rw [harith]
        exact ih i j (Nat.lt_of_succ_lt_succ hi) hj
      · rw [hD a]
        calc D ≤ (i + 1) * D := by nlinarith
        _ ≤ (i + 1) * D + j := Nat.le_add_right _ _

end MultiTransfer

namespace MultiTransfer

/-! ## Polling-loop lemmas -/

lemma pollAux_exit_le (replies : ℕ → PollReply) (endTime : ℕ) :
    ∀ fuel k now, (pollAux replies endTime fuel k now).2 ≤ max now (endTime + 999) := by
  intro fuel
  induction fuel with
  | zero => intro k now; simp [pollAux]
  | succ fuel ih =>
    intro k now
    unfold pollAux
    by_cases h : now < endTime
    · simp only [h, if_true]
      cases hr : replies k with
      | finalized r => simp [le_max_left]
      | notYet =>
        refine le_trans (ih (k + 1) (now + 500)) ?_
        have : now + 500 ≤ endTime + 999 := by omega
        omega
      | queryError e =>
        refine le_trans (ih (k + 1) (now + 1000)) ?_
        have : now + 1000 ≤ endTime + 999 := by omega
        omega
    · simp [h, le_max_left]

lemma pollAux_none_deadline (replies : ℕ → PollReply) (endTime : ℕ) :
    ∀ fuel k now, endTime - now ≤ fuel →
      (pollAux replies endTime fuel k now).1 = none →
      endTime ≤ (pollAux replies endTime fuel k now).2 := by
  intro fuel
  induction fuel with
  | zero =>
    intro k now hf _
    simp only [pollAux]
    omega
  | succ fuel ih =>
    intro k now hf hnone
    unfold pollAux at hnone ⊢
    by_cases h : now < endTime
    · simp only [h, if_true] at hnone ⊢
      cases hr : replies k with
      | finalized r => simp [hr] at hnone
      | notYet =>
        simp only [hr] at hnone ⊢
        exact ih (k + 1) (now + 500) (by omega) hnone
      | queryError e =>
        simp only [hr] at hnone ⊢
        exact ih (k + 1) (now + 1000) (by omega) hnone
    · simp only [h, if_false]
      omega

/-! ## Index/aggregation lemmas -/

lemma mapWithIndex_length {α β : Type} (f : ℕ → α → β) :
    ∀ (i : ℕ) (l : List α), (mapWithIndex f i l).length = l.length := by
  intro i l
  induction l generalizing i with
  | nil => rfl
  | cons a as ih => simp [mapWithIndex, ih]

lemma mapWithIndex_getElem? {α β : Type} (f : ℕ → α → β) :
    ∀ (i j : ℕ) (l : List α),
      (mapWithIndex f i l)[j]? = l[j]?.map (f (i + j)) := by
  intro i j l
  induction l generalizing i j with
  | nil => simp [mapWithIndex]
  | cons a as ih =>
    cases j with
    | zero => simp [mapWithIndex]
    | succ j =>
      simp only [mapWithIndex, List.getElem?_cons_succ, ih (i + 1) j]
      have : i + 1 + j = i + (j + 1) := by omega
      rw [this]

lemma collectAll_ok (l : List (Except Panicked TransferResult))
    (h : ∀ r ∈ l, r.isOk = true) :
    ∃ rs, collectAll l = .ok rs ∧ l = rs.map Except.ok := by
  induction l with
  | nil => exact ⟨[], rfl, rfl⟩
  | cons t ts ih =>
    have ht := h t (List.mem_cons_self t ts)
    obtain ⟨rs, hrs, hmap⟩ := ih (fun x hx => h x (List.mem_cons_of_mem t hx))
    cases t with
    | error p => simp [Except.isOk, Except.toBool] at ht
    | ok r => exact ⟨r :: rs, by simp [collectAll, hrs], by simp [hmap]⟩

lemma collectAll_error (l : List (Except Panicked TransferResult))
    (h : ∃ r ∈ l, r.isOk = false) :
    ∃ p, collectAll l = .error p := by
  induction l with
  | nil => simp at h
  | cons t ts ih =>
    cases t with
    | error p => exact ⟨p, rfl⟩
    | ok r =>
      obtain ⟨x, hx, hxf⟩ := h
      rcases List.mem_cons.1 hx with heq | hmem
      · rw [heq] at hxf; simp [Except.isOk, Except.toBool] at hxf
      · obtain ⟨p, hp⟩ := ih ⟨x, hmem, hxf⟩
        exact ⟨p, by simp [collectAll, hp]⟩

/-! ## Join-table lemmas -/

lemma fillTable_not_mem (tasks : List (Except Panicked TransferResult)) :
    ∀ (σ : List ℕ) (table) (i : ℕ), i ∉ σ →
      fillTable tasks σ table i = table i := by
  intro σ
  induction σ with
  | nil => intro table i _; rfl
  | cons a σ ih =>
    intro table i hi
    have hne : i ≠ a := fun h => hi (h ▸ List.mem_cons_self a σ)
    have hnot : i ∉ σ := fun h => hi (List.mem_cons_of_mem a h)
    simp only [fillTable, ih _ i hnot, writeSlot, hne, if_false]

lemma fillTable_mem (tasks : List (Except Panicked TransferResult)) :
    ∀ (σ : List ℕ) (table) (i : ℕ), i ∈ σ →
      fillTable tasks σ table i = tasks[i]? := by
  intro σ
  induction σ with
  | nil => intro table i hi; simp at hi
  | cons a σ ih =>
    intro table i hi
    by_cases hmem : i ∈ σ
    · simp only [fillTable, ih _ i hmem]
    · have heq : i = a := by
        rcases List.mem_cons.1 hi with h | h
        · exact h
        · exact absurd h hmem
      subst heq
      simp only [fillTable]
      rw [fillTable_not_mem tasks σ _ i hmem]
      simp [writeSlot]

lemma map_getElem?_range {α : Type} (l : List α) :
    (List.range l.length).map (fun i => l[i]?) = l.map some := by
  induction l with
  | nil => rfl
  | cons a as ih =>
    simp only [List.length_cons, List.range_succ_eq_map, List.map_cons, List.map_map,
      List.getElem?_cons_zero]
    refine congrArg (some a :: ·) ?_
    calc (List.range as.length).map ((fun i => (a :: as)[i]?) ∘ Nat.succ)
        = (List.range as.length).map (fun i => as[i]?) := by
          refine List.map_congr_left ?_
          intro i _
          simp
    _ = as.map some := ih

end MultiTransfer

namespace MultiTransfer

/-! ## Numeric lemmas for the conversion and the statistics -/

lemma pow2q_nonneg (e : ℤ) : 0 ≤ pow2q e := by
  unfold pow2q
  split
  · positivity
  · positivity

lemma roundPos_nonneg (q : ℚ) : 0 ≤ roundPos q := by
  unfold roundPos
  have h1 := pow2q_nonneg (floorLog2 q - 52)
  positivity

lemma roundF64_nonneg (q : ℚ) (h : 0 ≤ q) : 0 ≤ roundF64 q := by
  unfold roundF64
  split
  · exact le_refl 0
  · split
    · linarith
    · exact roundPos_nonneg q

lemma toNat_num_eq_mul_den (q : ℚ) (h : 0 ≤ q) :
    ((q.num.toNat : ℕ) : ℚ) = q * ((q.den : ℕ) : ℚ) := by
  have hd0 : ((q.den : ℕ) : ℚ) ≠ 0 := by
    have := q.den_pos
    positivity
  have h1 : ((q.num.toNat : ℕ) : ℤ) = q.num :=
    Int.toNat_of_nonneg (Rat.num_nonneg.2 h)
  have h2 : q * ((q.den : ℕ) : ℚ) = ((q.num : ℤ) : ℚ) := by
    nth_rewrite 1 [← Rat.num_div_den q]
    exact div_mul_cancel₀ _ hd0
  calc ((q.num.toNat : ℕ) : ℚ) = ((q.num : ℤ) : ℚ) := by exact_mod_cast congrArg Int.cast h1
  _ = q * ((q.den : ℕ) : ℚ) := h2.symm

lemma ratTruncNat_le (q : ℚ) (h : 0 ≤ q) : (ratTruncNat q : ℚ) ≤ q := by
  have hden : (0 : ℚ) < ((q.den : ℕ) : ℚ) := by exact_mod_cast q.den_pos
  refine le_of_mul_le_mul_right ?_ hden
  calc (ratTruncNat q : ℚ) * ((q.den : ℕ) : ℚ)
      = ((ratTruncNat q * q.den : ℕ) : ℚ) := by push_cast; ring
  _ ≤ ((q.num.toNat : ℕ) : ℚ) := by
      exact_mod_cast Nat.div_mul_le_self q.num.toNat q.den
  _ = q * ((q.den : ℕ) : ℚ) := toNat_num_eq_mul_den q h

lemma lt_ratTruncNat_add_one (q : ℚ) (h : 0 ≤ q) :
    q < (ratTruncNat q : ℚ) + 1 := by
  have hden : (0 : ℚ) < ((q.den : ℕ) : ℚ) := by exact_mod_cast q.den_pos
  have hnat : q.num.toNat < (ratTruncNat q + 1) * q.den := by
    unfold ratTruncNat
    have h1 : q.den * (q.num.toNat / q.den) + q.num.toNat % q.den = q.num.toNat :=
      Nat.div_add_mod _ _
    have h2 : q.num.toNat % q.den < q.den := Nat.mod_lt _ q.den_pos
    calc q.num.toNat = q.den * (q.num.toNat / q.den) + q.num.toNat % q.den := h1.symm
    _ < q.den * (q.num.toNat / q.den) + q.den := by omega
    _ = (q.num.toNat / q.den + 1) * q.den := by ring
  refine (mul_lt_mul_right hden).1 ?_
  rw [← toNat_num_eq_mul_den q h]
  exact_mod_cast hnat

lemma summarize_total_duration (results : List TransferResult) :
    (summarize results).total_duration =
      (results.map TransferResult.duration_ms).sum := by
  suffices h : ∀ acc : Summary,
      (results.foldl
        (fun acc r =>
          { success_count := acc.success_count +
              (match r.status with | .Success => 1 | _ => 0)
            failed_count := acc.failed_count +
              (match r.status with | .Failed _ => 1 | _ => 0)
            timeout_count := acc.timeout_count +
              (match r.status with | .Timeout => 1 | _ => 0)
            total_duration := acc.total_duration + r.duration_ms })
        acc).total_duration =
      acc.total_duration + (results.map TransferResult.duration_ms).sum by
    have := h ⟨0, 0, 0, 0⟩
    simpa [summarize] using this
  induction results with
  | nil => intro acc; simp
  | cons r rs ih =>
    intro acc
    simp only [List.foldl_cons, ih, List.map_cons, List.sum_cons]
    omega

lemma expandTransfers_empty (config : Config)
    (h : config.source_wallets = [] ∨ config.destination_wallets = []) :
    expandTransfers config = [] := by
  unfold expandTransfers
  rcases h with h | h
  · rw [h]; rfl
  · rw [h]
    induction config.source_wallets with
    | nil => rfl
    | cons s ss ih => simp [List.flatMap_cons, ih]

end MultiTransfer

namespace MultiTransfer

/-- C3: for every plan with S sources and D destinations, expansion
produces exactly S×D `TransferSpec`s in source-major, destination-minor
order, and the spec at position `i*D + j` pairs source `i` with
destination `j`, its amount being the source's override when present and
the plan default otherwise. -/
theorem plan_expansion_cross_product (config : Config) :
    (expandTransfers config).length =
      config.source_wallets.length * config.destination_wallets.length
    ∧ ∀ i j (hi : i < config.source_wallets.length)
        (hj : j < config.destination_wallets.length),
        (expandTransfers config)[i * config.destination_wallets.length + j]? =
          some { from_keypair_path :=
                   (config.source_wallets.get ⟨i, hi⟩).from_keypair_path
                 to_address := config.destination_wallets.get ⟨j, hj⟩
                 amount_sol :=
                   ((config.source_wallets.get ⟨i, hi⟩).amount).getD config.amount } := by
  constructor
  · exact expandTransfers_length config
  · intro i j hi hj
    unfold expandTransfers
    rw [flatMap_getElem? config.source_wallets _ config.destination_wallets.length
      (fun a => List.length_map _ _) i j hi hj]
    rw [List.getElem?_map]
    rw [List.getElem?_eq_getElem hj]
    simp [List.get_eq_getElem]

/-- Witness for C3: the spec's §8 scenario — 2 sources (default 1.0, one
override 2.5) × 2 destinations give 4 specs, and the spec at position
`1*2 + 0` is (s2, d1, 2.5). -/
theorem plan_expansion_cross_product_witness :
    (expandTransfers cfgScenario).length = 2 * 2
    ∧ (expandTransfers cfgScenario)[1 * 2 + 0]? =
        some { from_keypair_path := "s2.json"
               to_address := "d1"
               amount_sol := 5 / 2 } :=
  ⟨(plan_expansion_cross_product cfgScenario).1,
   (plan_expansion_cross_product cfgScenario).2 1 0 (by decide) (by decide)⟩

/-- C8 counterexample: a plan with an empty source list is not rejected —
expansion yields the empty work list and the engine proceeds to a
(vacuously empty) report instead of failing before dispatch.  (No
configuration-error path exists anywhere in the program.) -/
theorem empty_plan_proceeds :
    expandTransfers cfgNoSources = []
    ∧ runBatch cfgNoSources 1 (fun _ => envOk) = .ok [] :=
  ⟨rfl, rfl⟩

/-- C8 amended: with an empty source list or an empty destination list the
engine does not fail with a configuration error; it expands to an empty
work list, dispatches nothing, and returns an empty report. -/
theorem empty_plan_yields_empty_report (config : Config) (timeoutSecs : ℕ)
    (envs : ℕ → UnitEnv)
    (h : config.source_wallets = [] ∨ config.destination_wallets = []) :
    runBatch config timeoutSecs envs = .ok [] := by
  unfold runBatch unitResults
  rw [expandTransfers_empty config h]
  rfl

/-- Witness for C8 amended, at the concrete empty-source plan. -/
theorem empty_plan_yields_empty_report_witness :
    runBatch cfgNoSources 1 (fun _ => envPanic) = .ok [] :=
  empty_plan_yields_empty_report cfgNoSources 1 (fun _ => envPanic) (.inl rfl)

/-- C9 counterexample: with outcome durations 1ms and 2ms the program
reports average 1 (u64 division truncates), but the arithmetic mean of
the durations is 3/2. -/
theorem average_duration_counterexample :
    averageDuration [outcome1ms, outcome2ms] = 1
    ∧ ((averageDuration [outcome1ms, outcome2ms] : ℕ) : ℚ) ≠
        ((outcome1ms.duration_ms : ℚ) + (outcome2ms.duration_ms : ℚ)) / 2 := by
  constructor
  · with_unfolding_all rfl
  · intro hcontra
    rw [show averageDuration [outcome1ms, outcome2ms] = 1 from by with_unfolding_all rfl]
      at hcontra
    rw [show outcome1ms.duration_ms = 1 from rfl, show outcome2ms.duration_ms = 2 from rfl]
      at hcontra
    norm_num at hcontra

/-- C9 amended: the reported average duration is the floor of the
arithmetic mean of the per-outcome durations (u64 integer division), and
it is 0 when the outcome list is empty; the division is guarded so no
division by zero occurs. -/
theorem average_is_floor_of_mean (results : List TransferResult) :
    (results.isEmpty = true → averageDuration results = 0)
    ∧ (results.isEmpty = false →
        averageDuration results =
          ⌊((results.map TransferResult.duration_ms).sum : ℚ) /
            ((results.length : ℕ) : ℚ)⌋₊) := by
  constructor
  · intro h
    unfold averageDuration
    rw [h]
    rfl
  · intro h
    unfold averageDuration
    rw [h]
    simp only [Bool.not_false, if_true]
    rw [summarize_total_duration results]
    exact (@Nat.floor_div_eq_div ℚ _ _
      ((results.map TransferResult.duration_ms).sum) results.length).symm

/-- Witness for C9 amended, at the two concrete outcomes. -/
theorem average_is_floor_of_mean_witness :
    averageDuration [outcome1ms, outcome2ms] =
      ⌊((([outcome1ms, outcome2ms].map TransferResult.duration_ms).sum : ℚ)) /
        ((([outcome1ms, outcome2ms] : List TransferResult).length : ℕ) : ℚ)⌋₊ :=
  (average_is_floor_of_mean [outcome1ms, outcome2ms]).2 rfl

end MultiTransfer

namespace MultiTransfer

/-- C2: for every positive capacity `k`, every state of the concurrency
gate reachable from the initial (all-permits-free) state has at most `k`
simultaneous permit holders — no interleaving of acquires and releases
lets more than `k` units into the build→submit→poll critical section. -/
theorem gate_bounds_concurrency (k : ℕ) (s : List ℕ) (hk : 0 < k)
    (h : GateReach k s) : s.length ≤ k := by
  induction h with
  | init => simp
  | step _ hstep ih =>
    cases hstep with
    | acquire id s hmem hlen =>
      simp only [List.length_cons]
      omega
    | release id s hmem =>
      have := List.length_erase_of_mem hmem
      omega

/-- Witness for C2: with capacity 2, after units 7 and then 3 acquire,
the reachable state `[3, 7]` holds no more than 2 permits. -/
theorem gate_bounds_concurrency_witness : ([3, 7] : List ℕ).length ≤ 2 :=
  gate_bounds_concurrency 2 [3, 7] (by decide)
    (.step (.step .init (.acquire 7 [] (by simp) (by simp)))
      (.acquire 3 [7] (by simp) (by simp)))

/-- C7: the aggregator reads join handles in original index order, so for
every completion order `σ` that eventually delivers every task, the
sequence it collects is the per-unit results in original specification
order — independent of `σ`. -/
theorem report_order_matches_spec_order (config : Config) (timeoutSecs : ℕ)
    (envs : ℕ → UnitEnv) (σ : List ℕ)
    (hσ : ∀ i ∈ List.range (unitResults config timeoutSecs envs).length, i ∈ σ) :
    joinInOrder (unitResults config timeoutSecs envs) σ =
      (unitResults config timeoutSecs envs).map some := by
  unfold joinInOrder
  rw [← map_getElem?_range (unitResults config timeoutSecs envs)]
  refine List.map_congr_left ?_
  intro i hi
  exact fillTable_mem (unitResults config timeoutSecs envs) σ _ i (hσ i hi)

/-- Witness for C7: two units completing in reversed order `[1, 0]` still
yield the report in index order. -/
theorem report_order_matches_spec_order_witness :
    joinInOrder (unitResults cfgTwoDest 1 (fun _ => envOk)) [1, 0] =
      (unitResults cfgTwoDest 1 (fun _ => envOk)).map some :=
  report_order_matches_spec_order cfgTwoDest 1 (fun _ => envOk) [1, 0]
    (by with_unfolding_all decide)

/-- C1 (amended): when no unit suffers an unrecoverable fault the report
contains exactly one outcome per item of the expanded work list, in
order; but when any unit's task ends in a panic, `handle.await?`
propagates the join error and the whole run aborts with an error instead
of converting the fault to a `Failed` outcome. -/
theorem report_complete_unless_panic (config : Config) (timeoutSecs : ℕ)
    (envs : ℕ → UnitEnv) :
    ((∀ r ∈ unitResults config timeoutSecs envs, r.isOk = true) →
      ∃ rs, runBatch config timeoutSecs envs = .ok rs ∧
        unitResults config timeoutSecs envs = rs.map Except.ok ∧
        rs.length = (expandTransfers config).length)
    ∧ ((∃ r ∈ unitResults config timeoutSecs envs, r.isOk = false) →
        ∃ p, runBatch config timeoutSecs envs = .error p) := by
  constructor
  · intro h
    obtain ⟨rs, hrs, hmap⟩ := collectAll_ok _ h
    refine ⟨rs, hrs, hmap, ?_⟩
    have h1 : (unitResults config timeoutSecs envs).length =
        (expandTransfers config).length := by
      unfold unitResults
      exact mapWithIndex_length _ 0 _
    rw [hmap] at h1
    simpa using h1
  · intro h
    exact collectAll_error _ h

/-- C1 counterexample: a run whose first unit panics while building its
transaction terminates with a join error — the report is never produced
and the sibling unit's outcome is discarded, contradicting the claim
that such a fault is converted into a `Failed` outcome. -/
theorem panic_aborts_run :
    runBatch cfgTwoDest 1 (fun i => if i = 0 then envPanic else envOk) =
      .error .panicked := by
  with_unfolding_all rfl

/-- Witness for C1 (amended): a panic-free two-unit run produces a report
with exactly one outcome per expanded spec. -/
theorem report_complete_unless_panic_witness :
    ∃ rs, runBatch cfgTwoDest 1 (fun _ => envOk) = .ok rs ∧
      unitResults cfgTwoDest 1 (fun _ => envOk) = rs.map Except.ok ∧
      rs.length = (expandTransfers cfgTwoDest).length :=
  (report_complete_unless_panic cfgTwoDest 1 (fun _ => envOk)).1
    (by with_unfolding_all decide)

/-- C6: a unit whose key material fails to load, or whose destination
string fails to parse, yields a `Failed(reason)` outcome with duration 0
(the task returns `.ok`, so it neither panics nor aborts the batch), and
in a batch whose units all complete it appears at its own index in the
report. -/
theorem builder_failures_yield_failed_outcome :
    (∀ (spec : TransferSpec) (timeoutSecs : ℕ) (env : UnitEnv) (e : String),
      env.readKeypair = .error e →
        runUnitTask spec timeoutSecs env =
          .ok { from' := spec.from_keypair_path
                to' := spec.to_address
                amount := spec.amount_sol
                signature := .default
                duration_ms := 0
                status := .Failed ("Keypair loading error: " ++ e) })
    ∧ (∀ (spec : TransferSpec) (timeoutSecs : ℕ) (env : UnitEnv) (e : String)
        (kp : Keypair),
        env.readKeypair = .ok kp → env.parsePubkey = .error e →
        runUnitTask spec timeoutSecs env =
          .ok { from' := kp.pubkey.base58
                to' := spec.to_address
                amount := spec.amount_sol
                signature := .default
                duration_ms := 0
                status := .Failed ("Invalid destination address: " ++ e) })
    ∧ (∀ (config : Config) (timeoutSecs : ℕ) (envs : ℕ → UnitEnv) (i : ℕ)
        (e : String) (hi : i < (expandTransfers config).length),
        (envs i).readKeypair = .error e →
        (∀ r ∈ unitResults config timeoutSecs envs, r.isOk = true) →
        ∃ rs, runBatch config timeoutSecs envs = .ok rs ∧
          rs[i]? = some
            { from' := ((expandTransfers config).get ⟨i, hi⟩).from_keypair_path
              to' := ((expandTransfers config).get ⟨i, hi⟩).to_address
              amount := ((expandTransfers config).get ⟨i, hi⟩).amount_sol
              signature := .default
              duration_ms := 0
              status := .Failed ("Keypair loading error: " ++ e) }) := by
  refine ⟨?_, ?_, ?_⟩
  · intro spec timeoutSecs env e he
    unfold runUnitTask
    rw [he]
  · intro spec timeoutSecs env e kp hkp hpk
    unfold runUnitTask
    rw [hkp, hpk]
  · intro config timeoutSecs envs i e hi hkey hok
    obtain ⟨rs, hrs, hmap⟩ := collectAll_ok _ hok
    refine ⟨rs, hrs, ?_⟩
    have hunit : (unitResults config timeoutSecs envs)[i]? =
        some (runUnitTask ((expandTransfers config).get ⟨i, hi⟩) timeoutSecs (envs i)) := by
      unfold unitResults
      rw [mapWithIndex_getElem?]
      rw [List.getElem?_eq_getElem hi]
      simp [List.get_eq_getElem]
    have htask : runUnitTask ((expandTransfers config).get ⟨i, hi⟩) timeoutSecs (envs i) =
        .ok { from' := ((expandTransfers config).get ⟨i, hi⟩).from_keypair_path
              to' := ((expandTransfers config).get ⟨i, hi⟩).to_address
              amount := ((expandTransfers config).get ⟨i, hi⟩).amount_sol
              signature := .default
              duration_ms := 0
              status := .Failed ("Keypair loading error: " ++ e) } := by
      unfold runUnitTask
      rw [hkey]
    rw [hmap] at hunit
    rw [List.getElem?_map] at hunit
    rw [htask] at hunit
    cases hri : rs[i]? with
    | none => rw [hri] at hunit; simp at hunit
    | some r =>
      rw [hri] at hunit
      simp only [Option.map, Option.some.injEq, Except.ok.injEq] at hunit
      rw [hunit]

/-- Witness for C6: a concrete unit whose keypair file cannot be read
yields the `Failed` outcome with duration 0. -/
theorem builder_failures_yield_failed_outcome_witness :
    runUnitTask ⟨"key1.json", "dest1", 1⟩ 1 envBadKey =
      .ok { from' := "key1.json"
            to' := "dest1"
            amount := 1
            signature := .default
            duration_ms := 0
            status := .Failed ("Keypair loading error: " ++ "No such file") } :=
  builder_failures_yield_failed_outcome.1 ⟨"key1.json", "dest1", 1⟩ 1 envBadKey
    "No such file" rfl

/-- C10: the outcome's `from` field is the raw keypair file path exactly
on the key-load failure path, and the base58 rendering of the loaded
keypair's public key on every other path that produces an outcome
(invalid destination, send failure, success, timeout). -/
theorem from_field_depends_on_stage (spec : TransferSpec) (timeoutSecs : ℕ)
    (env : UnitEnv) :
    (∀ e, env.readKeypair = .error e →
      ∃ r, runUnitTask spec timeoutSecs env = .ok r ∧
        r.from' = spec.from_keypair_path)
    ∧ (∀ kp r, env.readKeypair = .ok kp →
        runUnitTask spec timeoutSecs env = .ok r →
        r.from' = kp.pubkey.base58) := by
  constructor
  · intro e he
    have hrun : runUnitTask spec timeoutSecs env =
        .ok { from' := spec.from_keypair_path
              to' := spec.to_address
              amount := spec.amount_sol
              signature := .default
              duration_ms := 0
              status := .Failed ("Keypair loading error: " ++ e) } := by
      unfold runUnitTask
      rw [he]
    exact ⟨_, hrun, rfl⟩
  · intro kp r hkp hrun
    unfold runUnitTask at hrun
    rw [hkp] at hrun
    cases hpk : env.parsePubkey with
    | error e =>
      rw [hpk] at hrun
      simp only [Except.ok.injEq] at hrun
      rw [← hrun]
    | ok pk =>
      rw [hpk] at hrun
      cases hb : env.buildPanics with
      | true =>
        rw [hb] at hrun
        simp at hrun
      | false =>
        rw [hb] at hrun
        cases hsend : env.sendResult with
        | error e =>
          rw [hsend] at hrun
          simp only [Bool.false_eq_true, if_false, Except.ok.injEq] at hrun
          rw [← hrun]
        | ok sig =>
          rw [hsend] at hrun
          simp only [Bool.false_eq_true, if_false, Except.ok.injEq] at hrun
          rw [← hrun]

/-- Witness for C10: on the key-load failure path the `from` field is the
raw path `"key1.json"`. -/
theorem from_field_depends_on_stage_witness :
    ∃ r, runUnitTask ⟨"key1.json", "dest1", 1⟩ 1 envBadKey = .ok r ∧
      r.from' = "key1.json" :=
  (from_field_depends_on_stage ⟨"key1.json", "dest1", 1⟩ 1 envBadKey).1
    "No such file" rfl

end MultiTransfer

namespace MultiTransfer

/-- C4: the confirmation poller loops until the deadline; a definitive
reply exits the loop immediately at the current clock; a "not yet known"
reply waits 500ms and a query error waits 1000ms before the next query;
the exit clock stays below deadline + one (long) polling interval; the
loop reports no status only at or past the deadline; the final status
maps 1:1 (success→Success, remote failure→Failed with the remote error,
unresolved→Timeout); and on the send-success path the unit's outcome
carries exactly the poller's status and exit clock. -/
theorem confirmation_poller_behavior (replies : ℕ → PollReply)
    (endTime k now fuel : ℕ) (r : Except String Unit) (e : String) :
    (now < endTime → replies k = .finalized r →
      pollAux replies endTime (fuel + 1) k now = (some r, now))
    ∧ (now < endTime → replies k = .notYet →
      pollAux replies endTime (fuel + 1) k now =
        pollAux replies endTime fuel (k + 1) (now + 500))
    ∧ (now < endTime → replies k = .queryError e →
      pollAux replies endTime (fuel + 1) k now =
        pollAux replies endTime fuel (k + 1) (now + 1000))
    ∧ (now ≤ endTime → (pollForStatus replies endTime now).2 < endTime + 1000)
    ∧ ((pollForStatus replies endTime now).1 = none →
        endTime ≤ (pollForStatus replies endTime now).2)
    ∧ statusOfPoll (some (.ok ())) = .Success
    ∧ statusOfPoll (some (.error e)) = .Failed ("Transaction error: " ++ e)
    ∧ statusOfPoll none = .Timeout
    ∧ (∀ (spec : TransferSpec) (timeoutSecs : ℕ) (env : UnitEnv)
        (kp : Keypair) (pk : Pubkey) (sig : Signature),
        env.readKeypair = .ok kp → env.parsePubkey = .ok pk →
        env.buildPanics = false → env.sendResult = .ok sig →
        runUnitTask spec timeoutSecs env = .ok
          { from' := kp.pubkey.base58
            to' := pk.base58
            amount := spec.amount_sol
            signature := sig
            duration_ms := (pollForStatus env.pollReplies
              (env.sendDurationMs + timeoutSecs * 1000) env.sendDurationMs).2
            status := statusOfPoll (pollForStatus env.pollReplies
              (env.sendDurationMs + timeoutSecs * 1000) env.sendDurationMs).1 }) := by
  refine ⟨?_, ?_, ?_, ?_, ?_, rfl, rfl, rfl, ?_⟩
  · intro hlt hrep
    unfold pollAux
    rw [if_pos hlt, hrep]
  · intro hlt hrep
    conv_lhs => rw [pollAux]
    rw [if_pos hlt, hrep]
  · intro hlt hrep
    conv_lhs => rw [pollAux]
    rw [if_pos hlt, hrep]
  · intro hle
    have hb := pollAux_exit_le replies endTime (endTime - now) 0 now
    unfold pollForStatus
    have hmax : max now (endTime + 999) = endTime + 999 := by omega
    rw [hmax] at hb
    omega
  · intro hnone
    exact pollAux_none_deadline replies endTime (endTime - now) 0 now (le_refl _) hnone
  · intro spec timeoutSecs env kp pk sig hkp hpk hb hsend
    unfold runUnitTask
    rw [hkp, hpk, hsend]
    simp [hb]

/-- Witness for C4: with the concrete script (not-yet, query-error, then
success), the first query waits 500ms, the exit clock stays under the
deadline plus one interval, and a fully successful unit's outcome carries
the poller's status and clock. -/
theorem confirmation_poller_behavior_witness :
    pollAux pollScript 60000 10 0 0 = pollAux pollScript 60000 9 1 500
    ∧ (pollForStatus pollScript 60000 0).2 < 60000 + 1000
    ∧ runUnitTask ⟨"key1.json", "dest1", 1⟩ 60 envPollScript = .ok
        { from' := "SrcPub"
          to' := "DstPub"
          amount := 1
          signature := .sig "Sig1"
          duration_ms := (pollForStatus envPollScript.pollReplies
            (envPollScript.sendDurationMs + 60 * 1000) envPollScript.sendDurationMs).2
          status := statusOfPoll (pollForStatus envPollScript.pollReplies
            (envPollScript.sendDurationMs + 60 * 1000) envPollScript.sendDurationMs).1 } :=
  ⟨(confirmation_poller_behavior pollScript 60000 0 0 9 (.ok ()) "e").2.1
      (by decide) rfl,
   (confirmation_poller_behavior pollScript 60000 0 0 9 (.ok ()) "e").2.2.2.1
      (by decide),
   (confirmation_poller_behavior pollScript 60000 0 0 9 (.ok ()) "e").2.2.2.2.2.2.2.2
      ⟨"key1.json", "dest1", 1⟩ 60 envPollScript ⟨⟨"SrcPub"⟩⟩ ⟨"DstPub"⟩ (.sig "Sig1")
      rfl rfl rfl rfl⟩

/-- C5: the SOL→lamports conversion multiplies by 10⁹ (in binary64) and
truncates the product toward zero — for every nonnegative amount the
result is the floor of the (rounded) product — and in particular the
literal 0.0000000015, whose rounded product is exactly 3/2, converts to
1 lamport, not the 2 that rounding to nearest would give. -/
theorem lamports_conversion_truncates :
    (∀ a : ℚ, 0 ≤ a → fmul64 a 1000000000 < 2 ^ 64 →
      ((solToLamports a : ℚ) ≤ fmul64 a 1000000000 ∧
        fmul64 a 1000000000 < (solToLamports a : ℚ) + 1))
    ∧ fmul64 amount15e10 1000000000 = 3 / 2
    ∧ solToLamports amount15e10 = 1 := by
  refine ⟨?_, by with_unfolding_all rfl, by with_unfolding_all rfl⟩
  intro a ha hlt
  have hp : 0 ≤ fmul64 a 1000000000 := roundF64_nonneg _ (by positivity)
  unfold solToLamports f64toU64
  by_cases hz : fmul64 a 1000000000 ≤ 0
  · have h0 : fmul64 a 1000000000 = 0 := le_antisymm hz hp
    rw [if_pos hz, h0]
    norm_num
  · rw [if_neg hz]
    have htr := ratTruncNat_le (fmul64 a 1000000000) hp
    have htr2 := lt_ratTruncNat_add_one (fmul64 a 1000000000) hp
    have hq : ((ratTruncNat (fmul64 a 1000000000) : ℕ) : ℚ) < ((2 ^ 64 : ℕ) : ℚ) := by
      refine lt_of_le_of_lt htr ?_
      push_cast
      exact hlt
    have h2 : ratTruncNat (fmul64 a 1000000000) < 2 ^ 64 := by exact_mod_cast hq
    have hmin : min (ratTruncNat (fmul64 a 1000000000)) (2 ^ 64 - 1) =
        ratTruncNat (fmul64 a 1000000000) := by
      refine min_eq_left ?_
      omega
    rw [hmin]
    exact ⟨htr, htr2⟩

/-- Witness for C5: the truncation bounds instantiated at the parsed
literal 0.0000000015. -/
theorem lamports_conversion_truncates_witness :
    (solToLamports amount15e10 : ℚ) ≤ fmul64 amount15e10 1000000000 ∧
      fmul64 amount15e10 1000000000 < (solToLamports amount15e10 : ℚ) + 1 :=
  lamports_conversion_truncates.1 amount15e10
    (by with_unfolding_all decide)
    (by with_unfolding_all decide)

end MultiTransfer
